import Mathlib

/-
Verification of the task-state reconciliation layer of the simple-todo-note
repository.  The definitions below are a shallow embedding of the TypeScript
source (src/src/App.tsx and the storage module): pure functions are translated
directly, the React state cell (todos, selectedTodoId, errorMessage,
deletedSnapshot, undoTimer) becomes an explicit AppState record, timer and
store-command side effects become an explicit effect list, and JavaScript
Date values become an explicit record of local calendar fields plus the
epoch-milliseconds value returned by getTime().
-/

namespace TodoApp

/-- Recurrence tag of a task: the four values of the RecurrenceTag union in
types.ts ('none' | 'daily' | 'weekly' | 'bi-weekly'). -/
inductive RecurrenceTag where
  | none
  | daily
  | weekly
  | biWeekly
deriving DecidableEq, Repr

/-- Model of a JavaScript Date: the local calendar components returned by
getFullYear()/getMonth()/getDate() together with the epoch-milliseconds
value returned by getTime(). -/
structure DT where
  year : Int
  month : Int
  day : Int
  time : Int
deriving DecidableEq, Repr

/-- Task record (the Todo type): recurrenceCheckedAt and dueDate are nullable
strings, modelled as Option String. -/
structure Todo where
  id : String
  title : String
  note : String
  recurrenceTag : RecurrenceTag
  recurrenceCheckedAt : Option String
  completed : Bool
  dueDate : Option String
  createdAt : String
  updatedAt : String
deriving DecidableEq, Repr

/-- Embedding of isSameLocalDay (App.tsx): compares getFullYear, getMonth and
getDate of the two dates. -/
def isSameLocalDay (left right : DT) : Bool :=
  left.year == right.year && left.month == right.month && left.day == right.day

/-- Embedding of isRecurringTag (App.tsx): true for every tag other than
'none'. -/
def isRecurringTag (tag : RecurrenceTag) : Bool :=
  !(tag == RecurrenceTag.none)

/-- Embedding of isRecurringCycleChecked (App.tsx).  The JavaScript
construction of a Date from the stored string (new Date(s) followed by the
Number.isNaN check on getTime()) is abstracted by a parse function returning
Option DT, with Option.none standing for an invalid date; the JavaScript
falsiness test on the stored field also rejects the empty string, which is
kept explicit here. -/
def isRecurringCycleChecked (parse : String → Option DT) (todo : Todo)
    (now : DT) : Bool :=
  if todo.completed then
    true
  else if !(isRecurringTag todo.recurrenceTag) then
    todo.completed
  else
    match todo.recurrenceCheckedAt with
    | Option.none => false
    | Option.some s =>
      if s = "" then
        false
      else
        match parse s with
        | Option.none => false
        | Option.some checkedAt =>
          if todo.recurrenceTag == RecurrenceTag.daily then
            isSameLocalDay checkedAt now
          else
            let elapsedMs := now.time - checkedAt.time
            let cycleDays : Int :=
              if todo.recurrenceTag == RecurrenceTag.weekly then 7 else 14
            decide (elapsedMs < cycleDays * 24 * 60 * 60 * 1000)

/-- Reference algorithm for cycle satisfaction, written from the spec's words
(section 4.1): completed tasks are always satisfied; tag 'none' yields false;
an absent or unparseable recurrenceCheckedAt yields false; 'daily' compares
local calendar days; 'weekly' and 'bi-weekly' are strict rolling windows of
7 and 14 days. -/
def cycleSatisfiedSpec (parse : String → Option DT) (todo : Todo)
    (now : DT) : Bool :=
  if todo.completed then
    true
  else if todo.recurrenceTag == RecurrenceTag.none then
    false
  else
    match todo.recurrenceCheckedAt.bind parse with
    | Option.none => false
    | Option.some checkedAt =>
      match todo.recurrenceTag with
      | RecurrenceTag.daily => isSameLocalDay checkedAt now
      | RecurrenceTag.weekly =>
          decide (now.time - checkedAt.time < 7 * 24 * 60 * 60 * 1000)
      | RecurrenceTag.biWeekly =>
          decide (now.time - checkedAt.time < 14 * 24 * 60 * 60 * 1000)
      | RecurrenceTag.none => false

/-- C1: the recurrence evaluator isRecurringCycleChecked computes exactly the
spec's reference algorithm: completed tasks yield true regardless of
recurrenceCheckedAt; tag 'none' yields false; an absent or unparseable
recurrenceCheckedAt yields false; 'daily' is satisfied iff the check fell on
the same local calendar day as now; 'weekly' iff now minus the check is
strictly below 7 days; 'bi-weekly' iff strictly below 14 days.  The only
assumption is that the date parser rejects the empty string, as the
JavaScript Date constructor does. -/
theorem isRecurringCycleChecked_eq_spec (parse : String → Option DT)
    (todo : Todo) (now : DT) (hparse : parse "" = Option.none) :
    isRecurringCycleChecked parse todo now = cycleSatisfiedSpec parse todo now := by
  unfold isRecurringCycleChecked cycleSatisfiedSpec
  rcases todo with ⟨id, title, note, tag, checkedAt, completed, dueDate, ca, ua⟩
  cases completed
  case true => simp
  case false =>
    rcases checkedAt with _ | s
    · cases tag <;> simp [isRecurringTag, Option.bind]
    · by_cases hs : s = ""
      · subst hs
        cases tag <;> simp [isRecurringTag, hparse, Option.bind]
      · cases hps : parse s <;> cases tag <;>
          simp [isRecurringTag, hs, hps, Option.bind]

/-- Demonstration witness for C1 at a concrete input: a daily task checked at
23:59:59 on one local day, evaluated two seconds later on the next local day:
both the code and the reference algorithm yield false. -/
def parseW : String → Option DT :=
  fun s => if s = "d0" then Option.some ⟨2024, 4, 14, 1715730899000⟩ else Option.none

/-- Concrete daily task whose last cycle check parses to 23:59:59 local time
on 2024-05-14. -/
def todoW : Todo :=
  { id := "t1", title := "water plants", note := "", recurrenceTag := RecurrenceTag.daily,
    recurrenceCheckedAt := Option.some "d0", completed := false, dueDate := Option.none,
    createdAt := "c", updatedAt := "u" }

/-- Witness for C1: the equivalence theorem applied at a concrete parser,
task and clock, with the parser hypothesis discharged by evaluation; at this
input both sides evaluate to false (next local calendar day, two seconds
later). -/
theorem isRecurringCycleChecked_eq_spec_witness :
    isRecurringCycleChecked parseW todoW ⟨2024, 4, 15, 1715730901000⟩ =
      cycleSatisfiedSpec parseW todoW ⟨2024, 4, 15, 1715730901000⟩ ∧
    isRecurringCycleChecked parseW todoW ⟨2024, 4, 15, 1715730901000⟩ = false :=
  ⟨isRecurringCycleChecked_eq_spec parseW todoW ⟨2024, 4, 15, 1715730901000⟩ (by decide),
   by decide⟩

/-- Tagged action variant resolved by a mark-done interaction. -/
inductive MarkDoneAction where
  | toggleCompleted
  | toggleCycleCheck
deriving DecidableEq, Repr

/-- Embedding of the decision in handleChecklistToggle (App.tsx): a
non-recurring or completed task goes through toggleTodo, every other task
goes through setRecurringCycleCheck. -/
def resolveChecklistAction (todo : Todo) : MarkDoneAction :=
  if !(isRecurringTag todo.recurrenceTag) || todo.completed then
    MarkDoneAction.toggleCompleted
  else
    MarkDoneAction.toggleCycleCheck

/-- Embedding of the optimistic record built by setRecurringCycleCheck
(App.tsx): recurrenceCheckedAt becomes the current instant's ISO string when
checking and null when unchecking; updatedAt is provisionally stamped; every
other field, completed included, is spread through unchanged. -/
def cycleCheckOptimistic (todo : Todo) (checked : Bool)
    (nowIso updIso : String) : Todo :=
  { todo with
    recurrenceCheckedAt := if checked then Option.some nowIso else Option.none,
    updatedAt := updIso }

/-- Embedding of the recurring branch of handleChecklistToggle (App.tsx): the
new check state is the negation of the current cycle satisfaction. -/
def handleChecklistOptimistic (parse : String → Option DT) (todo : Todo)
    (now : DT) (nowIso updIso : String) : Todo :=
  cycleCheckOptimistic todo (!(isRecurringCycleChecked parse todo now)) nowIso updIso

/-- C7: mark-done resolution is ToggleCompleted exactly when the tag is
'none' or the task is completed, and ToggleCycleCheck otherwise; the cycle
toggle writes recurrenceCheckedAt = now when satisfying, clears it to null
when un-satisfying (negating the current cycle satisfaction), and never
touches completed. -/
theorem resolveChecklistAction_spec (parse : String → Option DT) (todo : Todo)
    (now : DT) (nowIso updIso : String) :
    (resolveChecklistAction todo = MarkDoneAction.toggleCompleted ↔
       (todo.recurrenceTag = RecurrenceTag.none ∨ todo.completed = true)) ∧
    (handleChecklistOptimistic parse todo now nowIso updIso).completed = todo.completed ∧
    (handleChecklistOptimistic parse todo now nowIso updIso).recurrenceCheckedAt =
      (if isRecurringCycleChecked parse todo now then Option.none
       else Option.some nowIso) := by
  refine ⟨?_, ?_, ?_⟩
  · unfold resolveChecklistAction isRecurringTag
    rcases todo with ⟨id, title, note, tag, checkedAt, completed, dueDate, ca, ua⟩
    cases completed <;> cases tag <;> simp
  · rfl
  · unfold handleChecklistOptimistic cycleCheckOptimistic
    cases isRecurringCycleChecked parse todo now <;> simp

/-- Embedding of DeletedSnapshot (types.ts): the removed task together with
its original index in the visible collection. -/
structure Snapshot where
  todo : Todo
  index : Nat
deriving DecidableEq, Repr

/-- Explicit state for the reconciliation controller: the React state cells
todos, selectedTodoId, errorMessage and deletedSnapshot of App.tsx, plus the
undoTimer ref modelled as the id the pending grace timer will finalize. -/
structure AppState where
  todos : List Todo
  selectedTodoId : Option String
  errorMessage : Option String
  deletedSnapshot : Option Snapshot
  undoTimer : Option String
deriving DecidableEq, Repr

/-- Side effects emitted by the soft-delete operations: dispatching the
irreversible delete command to the durable store, starting the grace timer
(with its duration), and cancelling a running grace timer. -/
inductive Eff where
  | dispatchDelete (id : String)
  | startGraceTimer (id : String) (duration : Nat)
  | cancelGraceTimer
deriving DecidableEq, Repr

/-- Embedding of the success continuation of applyTodoPatch, toggleTodo and
setRecurringCycleCheck (App.tsx): the store's returned record replaces the
in-memory record with the same id, unconditionally. -/
def applyStoreResponse (todos : List Todo) (saved : Todo) : List Todo :=
  todos.map (fun todo => if todo.id = saved.id then saved else todo)

/-- Embedding of the selection rule inside refreshTodos (App.tsx): the
candidate is preferredId when given, otherwise the current selection; it is
kept when present in the refreshed list, otherwise the first item's id, or
none on an empty list. -/
def refreshSelection (nextTodos : List Todo)
    (preferredId currentId : Option String) : Option String :=
  match preferredId.orElse (fun _ => currentId) with
  | Option.some candidate =>
      if nextTodos.any (fun todo => todo.id = candidate) then
        Option.some candidate
      else
        (nextTodos.head?).map Todo.id
  | Option.none => (nextTodos.head?).map Todo.id

/-- Embedding of refreshTodos (App.tsx) applied to the list returned by the
store: replaces the collection and reselects via refreshSelection. -/
def refreshTodos (s : AppState) (storeTodos : List Todo)
    (preferredId : Option String) : AppState :=
  { s with
    todos := storeTodos,
    selectedTodoId := refreshSelection storeTodos preferredId s.selectedTodoId }

/-- Embedding of the catch branch shared by applyTodoPatch, toggleTodo and
setRecurringCycleCheck (App.tsx): one error message replaces any prior one,
then exactly one full refresh runs with the mutated id as preferred id. -/
def mutationFailure (s : AppState) (todoId : String) (msg : String)
    (storeTodos : List Todo) : AppState :=
  refreshTodos { s with errorMessage := Option.some msg } storeTodos
    (Option.some todoId)

/-- Base record used to build concrete tasks in counterexamples and
witnesses. -/
def baseTodo : Todo :=
  { id := "x", title := "t", note := "v0", recurrenceTag := RecurrenceTag.none,
    recurrenceCheckedAt := Option.none, completed := false,
    dueDate := Option.none, createdAt := "c", updatedAt := "u0" }

/-- Counterexample to C2: the controller keeps no per-id request sequence.
Two mutations for id x are in flight; the newer request's response (note v2)
is applied first, then the older request's response (note v1) arrives and is
applied unconditionally, overwriting the newer state: the final record is the
older response's record. -/
theorem applyStoreResponse_stale_overwrite :
    applyStoreResponse
        (applyStoreResponse [baseTodo] { baseTodo with note := "v2", updatedAt := "u2" })
        { baseTodo with note := "v1", updatedAt := "u1" } =
      [{ baseTodo with note := "v1", updatedAt := "u1" }] ∧
    ({ baseTodo with note := "v1", updatedAt := "u1" } : Todo) ≠
      { baseTodo with note := "v2", updatedAt := "u2" } := by
  constructor
  · rfl
  · decide

/-- C2 as amended: the controller applies every store response for an id
unconditionally, so with two in-flight mutations for the same id the response
applied last wins regardless of issue order: applying an older response after
a newer one leaves exactly the state the older response alone would have
produced. -/
theorem applyStoreResponse_last_writer_wins (todos : List Todo)
    (savedOld savedNew : Todo) (h : savedOld.id = savedNew.id) :
    applyStoreResponse (applyStoreResponse todos savedNew) savedOld =
      applyStoreResponse todos savedOld := by
  induction todos with
  | nil => rfl
  | cons t ts ih =>
    simp only [applyStoreResponse, List.map_cons, List.map_map] at *
    rw [ih]
    congr 1
    by_cases hc : t.id = savedNew.id
    · have hc' : t.id = savedOld.id := hc.trans h.symm
      simp [hc, hc', h.symm]
    · have hc' : ¬ t.id = savedOld.id := fun hh => hc (hh.trans h)
      simp [hc, hc']

/-- Witness for the amended C2 at concrete records: the two responses of the
stale-overwrite scenario target the same id, and the absorbed double
application coincides with applying only the older response. -/
theorem applyStoreResponse_last_writer_wins_witness :
    applyStoreResponse
        (applyStoreResponse [baseTodo] { baseTodo with note := "v2", updatedAt := "u2" })
        { baseTodo with note := "v1", updatedAt := "u1" } =
      applyStoreResponse [baseTodo] { baseTodo with note := "v1", updatedAt := "u1" } :=
  applyStoreResponse_last_writer_wins [baseTodo]
    { baseTodo with note := "v1", updatedAt := "u1" }
    { baseTodo with note := "v2", updatedAt := "u2" } rfl

/-- Concrete second task used in the C6 counterexample. -/
def otherTodo : Todo := { baseTodo with id := "b", note := "other" }

/-- Counterexample to C6: a store failure while task b is selected and task x
is the mutated id; after the corrective refresh both tasks still exist, yet
selection moves to the mutated id x instead of staying on the previously
selected id b, because refreshTodos receives the mutated id as preferred. -/
theorem mutationFailure_moves_selection :
    (mutationFailure
        { todos := [baseTodo, otherTodo], selectedTodoId := Option.some "b",
          errorMessage := Option.none, deletedSnapshot := Option.none,
          undoTimer := Option.none }
        "x" "store down" [baseTodo, otherTodo]).selectedTodoId = Option.some "x" ∧
    List.any [baseTodo, otherTodo] (fun todo => todo.id = "b") = true ∧
    (Option.some "x" : Option String) ≠ Option.some "b" := by
  refine ⟨rfl, rfl, ?_⟩
  decide

/-- C6 as amended: a store failure on a mutating operation surfaces exactly
one error message, replacing any prior one, and performs exactly one full
refresh; after the refresh the mutated id is selected when it still exists in
the refreshed collection, otherwise selection falls back to the first item or
to none — the previously selected id survives only when it coincides with the
mutated id. -/
theorem mutationFailure_spec (s : AppState) (todoId : String) (msg : String)
    (storeTodos : List Todo) :
    (mutationFailure s todoId msg storeTodos).errorMessage = Option.some msg ∧
    (mutationFailure s todoId msg storeTodos).todos = storeTodos ∧
    (mutationFailure s todoId msg storeTodos).selectedTodoId =
      (if storeTodos.any (fun todo => todo.id = todoId) then Option.some todoId
       else (storeTodos.head?).map Todo.id) := by
  refine ⟨rfl, rfl, ?_⟩
  simp [mutationFailure, refreshTodos, refreshSelection, Option.orElse]

/-- Embedding of the splice insertion in undoDelete (App.tsx):
next.splice(index, 0, todo) with index at most the length. -/
def insertAt (l : List Todo) (i : Nat) (a : Todo) : List Todo :=
  l.take i ++ a :: l.drop i

/-- Membership in a splice insertion: the inserted element or an element of
the original list. -/
theorem mem_insertAt (l : List Todo) (i : Nat) (a x : Todo) :
    x ∈ insertAt l i a ↔ x = a ∨ x ∈ l := by
  unfold insertAt
  constructor
  · intro hx
    rcases List.mem_append.1 hx with h1 | h2
    · exact Or.inr (List.take_subset i l h1)
    · rcases List.mem_cons.1 h2 with rfl | h3
      · exact Or.inl rfl
      · exact Or.inr (List.drop_subset i l h3)
  · intro hx
    rcases hx with rfl | hx
    · exact List.mem_append.2 (Or.inr (List.mem_cons_self x (l.drop i)))
    · rcases List.mem_append.1 ((List.take_append_drop i l).symm ▸ hx) with h1 | h2
      · exact List.mem_append.2 (Or.inl h1)
      · exact List.mem_append.2 (Or.inr (List.mem_cons_of_mem a h2))

/-- Embedding of todos.findIndex comparing ids (App.tsx deleteTodo), with
Option.none for the JavaScript result -1. -/
def findTodoIdx (todos : List Todo) (todoId : String) : Option Nat :=
  match todos with
  | [] => Option.none
  | t :: rest =>
      if t.id = todoId then Option.some 0
      else (findTodoIdx rest todoId).map (fun i => i + 1)

/-- Embedding of deleteTodo (App.tsx).  When a snapshot is already pending,
its grace timer is cancelled, finalize for its task is dispatched and the
snapshot cell is cleared, all before the new id is even looked up; then, when
the id is found, the task is removed from the visible collection, deselected
if selected, captured as the new snapshot and a fresh 5000-unit grace timer
is started. -/
def deleteTodo (s : AppState) (todoId : String) : AppState × List Eff :=
  let cancelEffs : List Eff :=
    match s.deletedSnapshot with
    | Option.some _ => if s.undoTimer.isSome then [Eff.cancelGraceTimer] else []
    | Option.none => []
  let finalizeEffs : List Eff :=
    match s.deletedSnapshot with
    | Option.some snap => [Eff.dispatchDelete snap.todo.id]
    | Option.none => []
  let s1 : AppState :=
    match s.deletedSnapshot with
    | Option.some _ =>
        { s with deletedSnapshot := Option.none, undoTimer := Option.none }
    | Option.none => s
  match findTodoIdx s1.todos todoId with
  | Option.none => (s1, cancelEffs ++ finalizeEffs)
  | Option.some index =>
    match s1.todos.get? index with
    | Option.none => (s1, cancelEffs ++ finalizeEffs)
    | Option.some target =>
      ({ s1 with
          todos := s1.todos.filter (fun todo => todo.id != todoId),
          selectedTodoId :=
            if s1.selectedTodoId = Option.some todoId then Option.none
            else s1.selectedTodoId,
          deletedSnapshot := Option.some ⟨target, index⟩,
          undoTimer := Option.some todoId },
       cancelEffs ++ finalizeEffs ++ [Eff.startGraceTimer todoId 5000])

/-- Embedding of undoDelete (App.tsx): a no-op without a snapshot; otherwise
cancels the grace timer, reinserts the snapshot's task at
min(originalIndex, currentLength), selects it and clears the snapshot. -/
def undoDelete (s : AppState) : AppState × List Eff :=
  match s.deletedSnapshot with
  | Option.none => (s, [])
  | Option.some snap =>
    ({ s with
        todos := insertAt s.todos (Nat.min snap.index s.todos.length) snap.todo,
        selectedTodoId := Option.some snap.todo.id,
        deletedSnapshot := Option.none,
        undoTimer := Option.none },
     if s.undoTimer.isSome then [Eff.cancelGraceTimer] else [])

/-- C3: the state holds at most one DeletedSnapshot (the cell is a single
Option, so this is preserved by every operation), and a delete issued while a
snapshot is pending first cancels the old grace timer and dispatches the old
snapshot's irreversible delete, so the old task is no longer recoverable by
undo, before the new snapshot is created with its own fresh 5000-unit grace
timer. -/
theorem deleteTodo_supersedes_pending (s : AppState) (old : Snapshot) (i : Nat)
    (target : Todo) (todoId : String)
    (hsnap : s.deletedSnapshot = Option.some old)
    (htimer : s.undoTimer.isSome = true)
    (hfind : findTodoIdx s.todos todoId = Option.some i)
    (hget : s.todos.get? i = Option.some target)
    (hold : old.todo ∉ s.todos) :
    (deleteTodo s todoId).2 =
        [Eff.cancelGraceTimer, Eff.dispatchDelete old.todo.id,
         Eff.startGraceTimer todoId 5000] ∧
    (deleteTodo s todoId).1.deletedSnapshot = Option.some ⟨target, i⟩ ∧
    (deleteTodo s todoId).1.todos =
        s.todos.filter (fun todo => todo.id != todoId) ∧
    old.todo ∉ (undoDelete (deleteTodo s todoId).1).1.todos := by
  have hdel : deleteTodo s todoId =
      ({ s with
          todos := s.todos.filter (fun todo => todo.id != todoId),
          selectedTodoId :=
            if s.selectedTodoId = Option.some todoId then Option.none
            else s.selectedTodoId,
          deletedSnapshot := Option.some ⟨target, i⟩,
          undoTimer := Option.some todoId },
       [Eff.cancelGraceTimer, Eff.dispatchDelete old.todo.id,
        Eff.startGraceTimer todoId 5000]) := by
    have hget' : s.todos[i]? = Option.some target := by
      simpa using hget
    unfold deleteTodo
    simp [hsnap, htimer, hfind, hget']
  refine ⟨by rw [hdel], by rw [hdel], by rw [hdel], ?_⟩
  rw [hdel]
  simp only [undoDelete]
  intro hmem
  rcases (mem_insertAt _ _ _ _).1 hmem with rfl | hmem'
  · exact hold (List.get?_mem hget)
  · exact hold (List.mem_of_mem_filter hmem')

/-- Concrete pending state for the C3 witness: task b was deleted earlier
(snapshot old0, no longer in the collection) while task x is still visible
and about to be deleted. -/
def pendingState : AppState :=
  { todos := [baseTodo], selectedTodoId := Option.some "x",
    errorMessage := Option.none,
    deletedSnapshot := Option.some ⟨otherTodo, 0⟩,
    undoTimer := Option.some "b" }

/-- Witness for C3: deleting x while b's snapshot is pending cancels b's
timer, dispatches b's irreversible delete, creates x's snapshot with a fresh
5000-unit timer, and leaves b unrecoverable by undo. -/
theorem deleteTodo_supersedes_pending_witness :
    (deleteTodo pendingState "x").2 =
        [Eff.cancelGraceTimer, Eff.dispatchDelete "b",
         Eff.startGraceTimer "x" 5000] ∧
    (deleteTodo pendingState "x").1.deletedSnapshot =
        Option.some ⟨baseTodo, 0⟩ ∧
    (deleteTodo pendingState "x").1.todos =
        (pendingState.todos.filter (fun todo => todo.id != "x")) ∧
    otherTodo ∉ (undoDelete (deleteTodo pendingState "x").1).1.todos :=
  deleteTodo_supersedes_pending pendingState ⟨otherTodo, 0⟩ 0 baseTodo "x"
    rfl rfl rfl rfl (by decide)

/-- C10: deleting an id that is not in the collection while a snapshot is
pending still finalizes the pending snapshot first (timer cancelled, delete
dispatched, snapshot cleared), creates no new snapshot and leaves the visible
collection and the selection untouched: the membership test runs only after
the old snapshot was finalized. -/
theorem deleteTodo_absent_id (s : AppState) (old : Snapshot) (todoId : String)
    (hsnap : s.deletedSnapshot = Option.some old)
    (hfind : findTodoIdx s.todos todoId = Option.none) :
    deleteTodo s todoId =
      ({ s with deletedSnapshot := Option.none, undoTimer := Option.none },
       (if s.undoTimer.isSome then [Eff.cancelGraceTimer] else []) ++
         [Eff.dispatchDelete old.todo.id]) := by
  unfold deleteTodo
  simp [hsnap, hfind]

/-- Witness for C10: deleting the missing id q from the pending state
finalizes b's snapshot, cancels its timer, and changes nothing else. -/
theorem deleteTodo_absent_id_witness :
    deleteTodo pendingState "q" =
      ({ pendingState with
          deletedSnapshot := Option.none, undoTimer := Option.none },
       (if pendingState.undoTimer.isSome then [Eff.cancelGraceTimer] else []) ++
         [Eff.dispatchDelete "b"]) :=
  deleteTodo_absent_id pendingState ⟨otherTodo, 0⟩ "q" rfl rfl

/-- C5: undo with a pending snapshot cancels the grace timer, reinserts the
snapshot's task unchanged at min(originalIndex, currentLength), selects it
and clears the snapshot; undo after the snapshot was cleared by finalize is a
no-op that changes nothing. -/
theorem undoDelete_spec (s : AppState) :
    (∀ snap, s.deletedSnapshot = Option.some snap →
      (undoDelete s).1.todos =
          insertAt s.todos (Nat.min snap.index s.todos.length) snap.todo ∧
      (undoDelete s).1.selectedTodoId = Option.some snap.todo.id ∧
      (undoDelete s).1.deletedSnapshot = Option.none ∧
      (undoDelete s).1.undoTimer = Option.none ∧
      (undoDelete s).1.errorMessage = s.errorMessage ∧
      (undoDelete s).2 =
        (if s.undoTimer.isSome then [Eff.cancelGraceTimer] else [])) ∧
    (s.deletedSnapshot = Option.none → undoDelete s = (s, [])) := by
  constructor
  · intro snap hsnap
    simp [undoDelete, hsnap]
  · intro hnone
    simp [undoDelete, hnone]

/-- Witness for C5: undo on the concrete pending state restores task b at
index min(0, 1) = 0, selects it, clears the snapshot and cancels the running
grace timer. -/
theorem undoDelete_spec_witness :
    (undoDelete pendingState).1.todos =
        insertAt pendingState.todos
          (Nat.min (0 : Nat) pendingState.todos.length) otherTodo ∧
    (undoDelete pendingState).1.selectedTodoId = Option.some otherTodo.id ∧
    (undoDelete pendingState).1.deletedSnapshot = Option.none ∧
    (undoDelete pendingState).1.undoTimer = Option.none ∧
    (undoDelete pendingState).1.errorMessage = pendingState.errorMessage ∧
    (undoDelete pendingState).2 =
      (if pendingState.undoTimer.isSome then [Eff.cancelGraceTimer] else []) :=
  (undoDelete_spec pendingState).1 ⟨otherTodo, 0⟩ rfl

/-- Embedding of MigrationResult (types.ts). -/
structure MigrationResult where
  migratedCount : Nat
  alreadyMigrated : Bool
deriving DecidableEq, Repr

/-- Model of a JavaScript value as produced by JSON.parse: null, booleans,
numbers, strings, arrays and objects with string keys. -/
inductive JVal where
  | jnull
  | jbool (b : Bool)
  | jnum (n : Int)
  | jstr (s : String)
  | jarr (xs : List JVal)
  | jobj (fields : List (String × JVal))
deriving Repr

/-- First-match lookup of a key in an object's field list; Option.none models
a JavaScript property access yielding undefined. -/
def objLookup : List (String × JVal) → String → Option JVal
  | [], _ => Option.none
  | (k, v) :: rest, key => if k = key then Option.some v else objLookup rest key

/-- Property access on a JSON value: fields exist only on objects. -/
def getField (v : JVal) (key : String) : Option JVal :=
  match v with
  | JVal.jobj fields => objLookup fields key
  | _ => Option.none

/-- Object spread with a field override, as in the legacy normalization
map: lookups of the overridden key find the new value, every other key is
unchanged. -/
def objSet (fields : List (String × JVal)) (key : String) (v : JVal) :
    List (String × JVal) :=
  (key, v) :: fields.filter (fun p => p.1 != key)

/-- Embedding of the JavaScript test typeof v === 'string' on a property
access result. -/
def isJStr : Option JVal → Bool
  | Option.some (JVal.jstr _) => true
  | _ => false

/-- Embedding of the JavaScript test typeof v === 'boolean' on a property
access result. -/
def isJBool : Option JVal → Bool
  | Option.some (JVal.jbool _) => true
  | _ => false

/-- Embedding of the JavaScript test v === null on a property access result
(false for an absent field, whose access yields undefined). -/
def isJNull : Option JVal → Bool
  | Option.some JVal.jnull => true
  | _ => false

/-- Embedding of isRecurrenceTag in storage.ts: the guard accepts exactly the
strings 'none', 'daily' and 'bi-weekly', and in particular not 'weekly'. -/
def isRecurrenceTagVal (v : JVal) : Bool :=
  match v with
  | JVal.jstr s => s = "none" || s = "daily" || s = "bi-weekly"
  | _ => false

/-- Embedding of isLegacyTodoLike in storage.ts: the object shape checks on
id, title, note, completed, dueDate (string or explicit null), createdAt,
updatedAt, plus the recurrenceTag guard (absent or an accepted tag). -/
def isLegacyTodoLike (v : JVal) : Bool :=
  match v with
  | JVal.jobj fields =>
      isJStr (objLookup fields "id") &&
      isJStr (objLookup fields "title") &&
      isJStr (objLookup fields "note") &&
      isJBool (objLookup fields "completed") &&
      (isJStr (objLookup fields "dueDate") ||
        isJNull (objLookup fields "dueDate")) &&
      isJStr (objLookup fields "createdAt") &&
      isJStr (objLookup fields "updatedAt") &&
      (match objLookup fields "recurrenceTag" with
       | Option.none => true
       | Option.some w => isRecurrenceTagVal w)
  | _ => false

/-- Embedding of the normalization map in loadLegacyTodosFromLocalStorage
(storage.ts): the spread with recurrenceTag := todo.recurrenceTag ?? 'none',
where ?? coalesces both an absent field and an explicit null.  No other field
is written; in particular recurrenceCheckedAt is not touched. -/
def normalizeLegacy (v : JVal) : JVal :=
  match v with
  | JVal.jobj fields =>
      let tag : JVal :=
        match objLookup fields "recurrenceTag" with
        | Option.none => JVal.jstr "none"
        | Option.some JVal.jnull => JVal.jstr "none"
        | Option.some w => w
      JVal.jobj (objSet fields "recurrenceTag" tag)
  | w => w

/-- Embedding of loadLegacyTodosFromLocalStorage (storage.ts) applied to the
already-parsed JSON root of the stored value: a non-array root yields the
empty payload, an array is filtered by the shape guard and normalized. -/
def loadLegacyTodos (root : JVal) : List JVal :=
  match root with
  | JVal.jarr xs => (xs.filter isLegacyTodoLike).map normalizeLegacy
  | _ => []

/-- Embedding of the clearing decision in loadApp (App.tsx): the legacy
source is cleared only when the loaded legacy payload is non-empty and the
migration reported migratedCount > 0 or alreadyMigrated. -/
def shouldClearLegacy (legacyTodos : List JVal) (m : MigrationResult) : Bool :=
  decide (legacyTodos.length > 0) &&
    (decide (m.migratedCount > 0) || m.alreadyMigrated)

/-- Counterexample to C4: with an empty legacy payload and a migration result
reporting alreadyMigrated = true, the claim demands that the legacy source is
cleared, but the code's extra non-emptiness conjunct leaves it uncleared. -/
theorem shouldClearLegacy_counterexample :
    shouldClearLegacy [] { migratedCount := 0, alreadyMigrated := true } = false ∧
    ({ migratedCount := 0, alreadyMigrated := true } : MigrationResult).alreadyMigrated
      = true := by
  exact ⟨rfl, rfl⟩

/-- C4 as amended: after startup migration the legacy source is cleared if
and only if the loaded legacy payload is non-empty AND (migratedCount > 0 OR
alreadyMigrated = true); with an empty legacy payload nothing is cleared even
in the already-migrated case, and an ambiguous or failed migration never
clears. -/
theorem shouldClearLegacy_spec (legacyTodos : List JVal) (m : MigrationResult) :
    shouldClearLegacy legacyTodos m = true ↔
      (legacyTodos ≠ [] ∧ (m.migratedCount > 0 ∨ m.alreadyMigrated = true)) := by
  unfold shouldClearLegacy
  rcases m with ⟨count, already⟩
  cases already <;> cases legacyTodos <;> simp

/-- Lookup of the overridden key in an object spread with override finds the
new value. -/
theorem objLookup_objSet_self (fields : List (String × JVal)) (key : String)
    (v : JVal) : objLookup (objSet fields key v) key = Option.some v := by
  simp [objSet, objLookup]

/-- Filtering out one key's entries does not change lookups of other keys. -/
theorem objLookup_filter_ne (fields : List (String × JVal)) (key key' : String)
    (h : key' ≠ key) :
    objLookup (fields.filter (fun p => p.1 != key)) key' =
      objLookup fields key' := by
  induction fields with
  | nil => rfl
  | cons p rest ih =>
    rcases p with ⟨k, v⟩
    by_cases hk : k = key
    · subst hk
      have hne : ¬ (k = key') := fun hh => h (hh.symm)
      simp [objLookup, hne, ih]
    · simp [objLookup, hk, ih]

/-- Lookup of a different key in an object spread with override is unchanged. -/
theorem objLookup_objSet_ne (fields : List (String × JVal)) (key key' : String)
    (v : JVal) (h : key' ≠ key) :
    objLookup (objSet fields key v) key' = objLookup fields key' := by
  have hne : ¬ (key = key') := fun hh => h hh.symm
  simp [objSet, objLookup, hne, objLookup_filter_ne fields key key' h]

/-- Field list of the concrete legacy record used for C8: a well-formed
legacy task that predates the recurrence fields, so both recurrenceTag and
recurrenceCheckedAt are absent. -/
def legacyFieldsW : List (String × JVal) :=
  [("id", JVal.jstr "1"), ("title", JVal.jstr "t"), ("note", JVal.jstr ""),
   ("completed", JVal.jbool false), ("dueDate", JVal.jnull),
   ("createdAt", JVal.jstr "c"), ("updatedAt", JVal.jstr "u")]

/-- Concrete legacy record missing both recurrence fields. -/
def legacyRecordW : JVal := JVal.jobj legacyFieldsW

/-- Counterexample to C8: the concrete legacy record missing both recurrence
fields is accepted and transferred with recurrenceTag normalized to 'none',
but its recurrenceCheckedAt is still absent in the payload handed to the
migration command — the field is not set to null, no normalization of
recurrenceCheckedAt happens at all. -/
theorem loadLegacyTodos_checkedAt_not_null :
    loadLegacyTodos (JVal.jarr [legacyRecordW]) = [normalizeLegacy legacyRecordW] ∧
    getField (normalizeLegacy legacyRecordW) "recurrenceTag" =
        Option.some (JVal.jstr "none") ∧
    getField (normalizeLegacy legacyRecordW) "recurrenceCheckedAt" =
        Option.none ∧
    (Option.none : Option JVal) ≠ Option.some JVal.jnull := by
  refine ⟨rfl, rfl, rfl, ?_⟩
  simp

/-- C8 as amended: a legacy record missing recurrenceTag is normalized so the
payload carries recurrenceTag = 'none', while every other field — in
particular recurrenceCheckedAt — is passed through exactly as stored: a
missing recurrenceCheckedAt stays absent in the payload rather than being set
to an explicit null. -/
theorem normalizeLegacy_spec (fields : List (String × JVal))
    (htag : objLookup fields "recurrenceTag" = Option.none) :
    getField (normalizeLegacy (JVal.jobj fields)) "recurrenceTag" =
        Option.some (JVal.jstr "none") ∧
    ∀ key, key ≠ "recurrenceTag" →
      getField (normalizeLegacy (JVal.jobj fields)) key =
        objLookup fields key := by
  constructor
  · simp [normalizeLegacy, htag, getField, objLookup_objSet_self]
  · intro key hkey
    simp [normalizeLegacy, htag, getField, objLookup_objSet_ne fields _ _ _ hkey]

/-- Witness for the amended C8: the concrete pre-recurrence record is
normalized to tag 'none' and its recurrenceCheckedAt lookup is unchanged
(absent before, absent after). -/
theorem normalizeLegacy_spec_witness :
    getField (normalizeLegacy (JVal.jobj legacyFieldsW)) "recurrenceTag" =
        Option.some (JVal.jstr "none") ∧
    getField (normalizeLegacy (JVal.jobj legacyFieldsW)) "recurrenceCheckedAt" =
        objLookup legacyFieldsW "recurrenceCheckedAt" :=
  ⟨(normalizeLegacy_spec legacyFieldsW rfl).1,
   (normalizeLegacy_spec legacyFieldsW rfl).2 "recurrenceCheckedAt" (by decide)⟩

/-- C9: a stored legacy record whose recurrenceTag field is the string
'weekly' — a valid tag of the data model — fails the legacy shape guard,
because isRecurrenceTag accepts only 'none', 'daily' and 'bi-weekly'; hence
no record of the migration payload ever carries tag 'weekly': such records
are silently dropped. -/
theorem weekly_legacy_records_dropped :
    (∀ v : JVal,
        getField v "recurrenceTag" = Option.some (JVal.jstr "weekly") →
        isLegacyTodoLike v = false) ∧
    (∀ root r, r ∈ loadLegacyTodos root →
        getField r "recurrenceTag" ≠ Option.some (JVal.jstr "weekly")) := by
  constructor
  · intro v h
    cases v with
    | jobj fields =>
        simp only [getField] at h
        simp [isLegacyTodoLike, h, isRecurrenceTagVal]
    | jnull => simp [getField] at h
    | jbool b => simp [getField] at h
    | jnum n => simp [getField] at h
    | jstr s => simp [getField] at h
    | jarr xs => simp [getField] at h
  · intro root r hr hcontra
    cases root with
    | jarr xs =>
        simp only [loadLegacyTodos, List.mem_map] at hr
        rcases hr with ⟨v, hvmem, rfl⟩
        rcases List.mem_filter.1 hvmem with ⟨hvxs, hvlike⟩
        cases v with
        | jobj fields =>
            have hguard :
                (match objLookup fields "recurrenceTag" with
                 | Option.none => true
                 | Option.some w => isRecurrenceTagVal w) = true := by
              simp only [isLegacyTodoLike, Bool.and_eq_true] at hvlike
              exact hvlike.2
            cases hlook : objLookup fields "recurrenceTag" with
            | none =>
                rw [show normalizeLegacy (JVal.jobj fields) =
                      JVal.jobj (objSet fields "recurrenceTag" (JVal.jstr "none"))
                    from by simp [normalizeLegacy, hlook]] at hcontra
                rw [show getField
                      (JVal.jobj (objSet fields "recurrenceTag" (JVal.jstr "none")))
                      "recurrenceTag" = Option.some (JVal.jstr "none")
                    from objLookup_objSet_self fields _ _] at hcontra
                simp at hcontra
            | some w =>
                rw [hlook] at hguard
                cases w with
                | jstr s =>
                    have hs : (s = "none" || s = "daily" || s = "bi-weekly") = true := by
                      simpa [isRecurrenceTagVal] using hguard
                    rw [show normalizeLegacy (JVal.jobj fields) =
                          JVal.jobj (objSet fields "recurrenceTag" (JVal.jstr s))
                        from by simp [normalizeLegacy, hlook]] at hcontra
                    rw [show getField
                          (JVal.jobj (objSet fields "recurrenceTag" (JVal.jstr s)))
                          "recurrenceTag" = Option.some (JVal.jstr s)
                        from objLookup_objSet_self fields _ _] at hcontra
                    have hsw : s = "weekly" := by
                      injection hcontra with hcontra'
                      injection hcontra' with hcontra''
                    subst hsw
                    simp at hs
                | jnull => simp [isRecurrenceTagVal] at hguard
                | jbool b => simp [isRecurrenceTagVal] at hguard
                | jnum n => simp [isRecurrenceTagVal] at hguard
                | jarr ys => simp [isRecurrenceTagVal] at hguard
                | jobj fs => simp [isRecurrenceTagVal] at hguard
        | jnull => simp [isLegacyTodoLike] at hvlike
        | jbool b => simp [isLegacyTodoLike] at hvlike
        | jnum n => simp [isLegacyTodoLike] at hvlike
        | jstr s => simp [isLegacyTodoLike] at hvlike
        | jarr ys => simp [isLegacyTodoLike] at hvlike
    | jnull => simp [loadLegacyTodos] at hr
    | jbool b => simp [loadLegacyTodos] at hr
    | jnum n => simp [loadLegacyTodos] at hr
    | jstr s => simp [loadLegacyTodos] at hr
    | jobj fields => simp [loadLegacyTodos] at hr

/-- Concrete stored record for the C9 witness: fully legacy-shaped except
that its recurrenceTag is the valid model tag 'weekly'. -/
def weeklyRecordW : JVal :=
  JVal.jobj [("id", JVal.jstr "7"), ("title", JVal.jstr "w"),
    ("note", JVal.jstr ""), ("completed", JVal.jbool false),
    ("dueDate", JVal.jnull), ("createdAt", JVal.jstr "c"),
    ("updatedAt", JVal.jstr "u"), ("recurrenceTag", JVal.jstr "weekly")]

/-- Witness for C9: the concrete 'weekly'-tagged stored record is rejected by
the legacy shape guard. -/
theorem weekly_legacy_records_dropped_witness :
    getField weeklyRecordW "recurrenceTag" = Option.some (JVal.jstr "weekly") ∧
    isLegacyTodoLike weeklyRecordW = false :=
  ⟨rfl, weekly_legacy_records_dropped.1 weeklyRecordW rfl⟩

end TodoApp
